import Mathlib

/-!
Verification of `SetIcon` from
`src/volumetric-display/simulator/resources/icon_cmake.cpp`.

Paths are modelled as `String`s in POSIX generic format.
`parentPath` models `std::filesystem::path(s).parent_path()` and
`pathAppend` models `std::filesystem::path::operator/` for the
relative, root-name-free components that occur here.
The filesystem is a pure existence predicate `String → Bool`;
`SetIcon` is translated with explicit state passing and records its
effects: the existence queries it issued, the log messages (with
level) and the calls to the `SetIconHelper` collaborator.
-/

namespace IconCmake

/-- Does the string start with a directory separator (an absolute path,
for the root-name-free POSIX paths modelled here)? -/
def startsWithSlash (s : String) : Bool := s.data.head? == some '/'

/-- Does the string end with a directory separator?  This is the
negation of `std::filesystem::path::has_filename()` for the non-empty
relative-or-rooted paths that occur in `SetIcon`. -/
def endsWithSlash (s : String) : Bool := s.data.reverse.head? == some '/'

/-- Model of `std::filesystem::path::operator/` (POSIX, `q` without a
root name): an absolute right operand replaces the left; otherwise a
separator is inserted exactly when the left operand is non-empty and
does not already end in one. -/
def pathAppend (p q : String) : String :=
  if startsWithSlash q then q
  else if p = "" then q
  else if endsWithSlash p then p ++ q
  else p ++ "/" ++ q

/-- Model of `std::filesystem::path(s).parent_path()` (POSIX): drop the
final path component and the separators in front of it, keeping the
root directory when everything else is removed. -/
def parentPath (s : String) : String :=
  if s.data.contains '/' then
    let rest := (s.data.reverse.dropWhile (fun c => c ≠ '/')).dropWhile (fun c => c = '/')
    if rest.isEmpty then "/" else ⟨rest.reverse⟩
  else ""

/-- The candidate list built at the top of `SetIcon`
(`possible_paths` in the C++ source). -/
def possible_paths (argv0 : String) : List String :=
  [ pathAppend (parentPath argv0) "icon.png",
    pathAppend (pathAppend (parentPath argv0) "resources") "icon.png",
    "resources/icon.png",
    "icon.png" ]

/-- Severity levels used by the `LOG` collaborator in `SetIcon`. -/
inductive LogLevel where
  | info : LogLevel
  | warning : LogLevel
deriving DecidableEq, Repr

/-- The observable effects of one `SetIcon` call: the existence queries
issued (in order), the log messages emitted, and the arguments passed
to the `SetIconHelper` collaborator. -/
structure SetIconResult where
  queries : List String
  logs : List (LogLevel × String)
  iconCalls : List String
deriving DecidableEq, Repr

/-- The probe loop of `SetIcon`: starting from `icon_path = ""`, query
each candidate in order and stop at the first hit.  Returns the final
`icon_path` together with the list of existence queries issued. -/
def probeLoop (fs : String → Bool) : List String → String × List String
  | [] => ("", [])
  | p :: rest =>
    if fs p then (p, [p])
    else ((probeLoop fs rest).1, p :: (probeLoop fs rest).2)

/-- Warning message logged when no candidate exists. -/
def warnMsg : String := "Icon file not found in any of the expected locations"

/-- Info message logged when a candidate is chosen. -/
def infoMsg (iconPath : String) : String := "Using icon from: " ++ iconPath

/-- Model of `SetIcon(std::string argv0)`: probe the candidates in
order; if `icon_path` stayed empty, log one warning and return,
otherwise log one info message and call `SetIconHelper(icon_path)`.
The filesystem state is threaded explicitly and returned. -/
def SetIcon (fs : String → Bool) (argv0 : String) :
    (String → Bool) × SetIconResult :=
  if (probeLoop fs (possible_paths argv0)).1 = "" then
    (fs, ⟨(probeLoop fs (possible_paths argv0)).2,
          [(LogLevel.warning, warnMsg)], []⟩)
  else
    (fs, ⟨(probeLoop fs (possible_paths argv0)).2,
          [(LogLevel.info, infoMsg (probeLoop fs (possible_paths argv0)).1)],
          [(probeLoop fs (possible_paths argv0)).1]⟩)

/-- Modelled from the spec: the ordered candidate list exactly as the
spec words it, `{parentDir/icon.png, parentDir/resources/icon.png,
"resources/icon.png", "icon.png"}`, with each slash a single
`operator/` join. -/
def specCandidates (argv0 : String) : List String :=
  [ pathAppend (parentPath argv0) "icon.png",
    pathAppend (parentPath argv0) "resources/icon.png",
    "resources/icon.png",
    "icon.png" ]

/-! ### String helper lemmas -/

lemma data_append (p q : String) : (p ++ q).data = p.data ++ q.data := rfl

lemma append_ne_empty (p q : String) (hq : q ≠ "") : p ++ q ≠ "" := by
  intro h
  have hd : p.data ++ q.data = ([] : List Char) := by
    rw [← data_append, h]
  exact hq (String.ext (List.append_eq_nil.mp hd).2)

lemma endsWithSlash_append (p q : String) (hq : q.data ≠ []) :
    endsWithSlash (p ++ q) = endsWithSlash q := by
  unfold endsWithSlash
  rw [data_append, List.reverse_append]
  cases hqd : q.data.reverse with
  | nil => exact absurd (List.reverse_eq_nil_iff.mp hqd) hq
  | cons a t => simp

lemma pathAppend_ne_empty (p q : String) (hq : q ≠ "") : pathAppend p q ≠ "" := by
  unfold pathAppend
  by_cases h1 : startsWithSlash q
  · simpa [h1] using hq
  · by_cases h2 : p = ""
    · simpa [h1, h2] using hq
    · by_cases h3 : endsWithSlash p
      · simpa [h1, h2, h3] using append_ne_empty p q hq
      · simpa [h1, h2, h3] using append_ne_empty (p ++ "/") q hq

/-- Appending `"resources"` then `"icon.png"` with `operator/` is the
same as appending `"resources/icon.png"` in one step. -/
lemma pathAppend_resources (p : String) :
    pathAppend (pathAppend p "resources") "icon.png" =
      pathAppend p "resources/icon.png" := by
  have hs1 : startsWithSlash "resources" = false := by decide
  have hs2 : startsWithSlash "icon.png" = false := by decide
  have hs3 : startsWithSlash "resources/icon.png" = false := by decide
  by_cases hp : p = ""
  · subst hp; decide
  · by_cases he : endsWithSlash p
    · have hinner : pathAppend p "resources" = p ++ "resources" := by
        simp [pathAppend, hs1, hp, he]
      have hne : p ++ "resources" ≠ "" := append_ne_empty _ _ (by decide)
      have hee : endsWithSlash (p ++ "resources") = false := by
        rw [endsWithSlash_append p "resources" (by decide)]; decide
      rw [hinner]
      simp only [pathAppend, hs1, hs2, hs3, hp, he, hne, hee,
        Bool.false_eq_true, if_false, if_neg hne, if_true]
      rw [String.append_assoc, String.append_assoc]
      rfl
    · have hinner : pathAppend p "resources" = p ++ "/" ++ "resources" := by
        simp [pathAppend, hs1, hp, he]
      have hne : p ++ "/" ++ "resources" ≠ "" := append_ne_empty _ _ (by decide)
      have hee : endsWithSlash (p ++ "/" ++ "resources") = false := by
        rw [endsWithSlash_append (p ++ "/") "resources" (by decide)]; decide
      rw [hinner]
      simp only [pathAppend, hs1, hs2, hs3, hp, he, hne, hee,
        Bool.false_eq_true, if_false, if_neg hne, if_true]
      apply String.ext
      simp only [data_append, List.append_assoc]
      rfl

lemma mem_possible_paths_ne_empty (a : String) :
    ∀ p ∈ possible_paths a, p ≠ "" := by
  intro p hp
  simp only [possible_paths, List.mem_cons, List.mem_singleton,
    List.not_mem_nil, or_false] at hp
  rcases hp with h | h | h | h
  · exact h ▸ pathAppend_ne_empty _ _ (by decide)
  · exact h ▸ pathAppend_ne_empty _ _ (by decide)
  · exact h ▸ (by decide)
  · exact h ▸ (by decide)

/-! ### Probe-loop lemmas -/

lemma probeLoop_first (fs : String → Bool) (p : String) (rest : List String)
    (h : fs p = true) : probeLoop fs (p :: rest) = (p, [p]) := by
  simp [probeLoop, h]

lemma probeLoop_queries_sub (fs : String → Bool) (l : List String) :
    ∀ q ∈ (probeLoop fs l).2, q ∈ l := by
  induction l with
  | nil => simp [probeLoop]
  | cons p rest ih =>
    by_cases h : fs p
    · simp [probeLoop, h]
    · intro q hq
      simp only [probeLoop, h, Bool.false_eq_true, if_false,
        List.mem_cons] at hq
      rcases hq with h' | h'
      · exact h' ▸ List.mem_cons_self p rest
      · exact List.mem_cons_of_mem p (ih q h')

lemma probeLoop_queries_len (fs : String → Bool) (l : List String) :
    (probeLoop fs l).2.length ≤ l.length := by
  induction l with
  | nil => simp [probeLoop]
  | cons p rest ih =>
    by_cases h : fs p
    · simp [probeLoop, h]
    · simp only [probeLoop, h, Bool.false_eq_true, if_false, List.length_cons]
      omega

lemma probeLoop_empty_iff (fs : String → Bool) (l : List String)
    (hne : ∀ p ∈ l, p ≠ "") :
    (probeLoop fs l).1 = "" ↔ ∀ p ∈ l, fs p = false := by
  induction l with
  | nil => simp [probeLoop]
  | cons p rest ih =>
    have hp : p ≠ "" := hne p (List.mem_cons_self p rest)
    have ih' := ih (fun q hq => hne q (List.mem_cons_of_mem p hq))
    by_cases h : fs p
    · simp [probeLoop, h, hp]
    · simp only [probeLoop, h, Bool.false_eq_true, if_false, ih',
        List.forall_mem_cons]
      simp [Bool.not_eq_true] at h
      simp [h]

lemma probeLoop_found (fs : String → Bool) (l : List String)
    (h : (probeLoop fs l).1 ≠ "") :
    (probeLoop fs l).1 ∈ l ∧ fs (probeLoop fs l).1 = true := by
  induction l with
  | nil => exact absurd rfl h
  | cons p rest ih =>
    by_cases hf : fs p
    · simp [probeLoop, hf]
    · simp only [probeLoop, hf, Bool.false_eq_true, if_false] at h ⊢
      obtain ⟨h1, h2⟩ := ih h
      exact ⟨List.mem_cons_of_mem p h1, h2⟩

lemma probeLoop_unique (fs : String → Bool) (l : List String) (p : String)
    (hmem : p ∈ l) (hp : fs p = true)
    (huniq : ∀ q ∈ l, fs q = true → q = p) :
    (probeLoop fs l).1 = p := by
  induction l with
  | nil => cases hmem
  | cons q rest ih =>
    by_cases hf : fs q
    · have : q = p := huniq q (List.mem_cons_self q rest) hf
      simp [probeLoop, hf, this, hp]
    · have hqp : q ≠ p := fun h => hf (h ▸ hp)
      have hmem' : p ∈ rest := by
        rcases List.mem_cons.mp hmem with h | h
        · exact absurd h.symm hqp
        · exact h
      have huniq' : ∀ r ∈ rest, fs r = true → r = p :=
        fun r hr => huniq r (List.mem_cons_of_mem q hr)
      simp only [probeLoop, hf, Bool.false_eq_true, if_false]
      exact ih hmem' huniq'

/-! ### `SetIcon` shape lemmas -/

lemma SetIcon_fst (fs : String → Bool) (a : String) : (SetIcon fs a).1 = fs := by
  unfold SetIcon
  split <;> rfl

lemma SetIcon_queries (fs : String → Bool) (a : String) :
    (SetIcon fs a).2.queries = (probeLoop fs (possible_paths a)).2 := by
  unfold SetIcon
  split <;> rfl

/-! ### Claim theorems -/

/-- Claim C1: for every executable-path hint, `SetIcon` builds the
candidate list as exactly the four paths
`parentDir/icon.png, parentDir/resources/icon.png, "resources/icon.png",
"icon.png"`, in this order, with no other entries. -/
theorem C1_candidate_list (a : String) : possible_paths a = specCandidates a := by
  simp only [possible_paths, specCandidates, pathAppend_resources]

/-- Claim C2: if the parent directory of the hint is non-empty and
`parentDir/icon.png` exists, `SetIcon` invokes the collaborator with
`parentDir/icon.png`, whatever the other candidates' existence
(first-match-wins). -/
theorem C2_parent_icon_first (fs : String → Bool) (a : String)
    (hpar : parentPath a ≠ "")
    (h1 : fs (pathAppend (parentPath a) "icon.png") = true) :
    (SetIcon fs a).2.iconCalls = [pathAppend (parentPath a) "icon.png"] := by
  have hloop : (probeLoop fs (possible_paths a)).1 =
      pathAppend (parentPath a) "icon.png" := by
    rw [possible_paths, probeLoop_first fs _ _ h1]
  unfold SetIcon
  rw [hloop, if_neg (pathAppend_ne_empty (parentPath a) "icon.png" (by decide))]

theorem C2_parent_icon_first_witness :
    (SetIcon (fun s => s == "/opt/app/bin/icon.png") "/opt/app/bin/myprog").2.iconCalls
      = [pathAppend (parentPath "/opt/app/bin/myprog") "icon.png"] :=
  C2_parent_icon_first _ _ (by decide) (by decide)

/-- Claim C3: if none of the four candidates exists, `SetIcon` returns
without invoking the collaborator and emits exactly one warning-level
diagnostic (and no informational one). -/
theorem C3_none_found (fs : String → Bool) (a : String)
    (h : ∀ p ∈ possible_paths a, fs p = false) :
    (SetIcon fs a).2.iconCalls = [] ∧
    (SetIcon fs a).2.logs = [(LogLevel.warning, warnMsg)] := by
  have hempty : (probeLoop fs (possible_paths a)).1 = "" :=
    (probeLoop_empty_iff fs _ (mem_possible_paths_ne_empty a)).mpr h
  unfold SetIcon
  rw [if_pos hempty]
  exact ⟨rfl, rfl⟩

theorem C3_none_found_witness :
    (SetIcon (fun _ => false) "myprog").2.iconCalls = [] ∧
    (SetIcon (fun _ => false) "myprog").2.logs = [(LogLevel.warning, warnMsg)] :=
  C3_none_found _ _ (by decide)

/-- Claim C4: if exactly one of the four candidate paths exists,
`SetIcon` emits exactly one informational diagnostic naming that path
and invokes the collaborator exactly once with that exact string (and
emits no warning). -/
theorem C4_unique_candidate (fs : String → Bool) (a : String) (p : String)
    (hmem : p ∈ possible_paths a) (hp : fs p = true)
    (huniq : ∀ q ∈ possible_paths a, q ≠ p → fs q = false) :
    (SetIcon fs a).2.logs = [(LogLevel.info, infoMsg p)] ∧
    (SetIcon fs a).2.iconCalls = [p] := by
  have huniq' : ∀ q ∈ possible_paths a, fs q = true → q = p := by
    intro q hq hfq
    by_contra hne
    rw [huniq q hq hne] at hfq
    cases hfq
  have hloop : (probeLoop fs (possible_paths a)).1 = p :=
    probeLoop_unique fs _ p hmem hp huniq'
  unfold SetIcon
  rw [hloop, if_neg (mem_possible_paths_ne_empty a p hmem)]
  exact ⟨rfl, rfl⟩

theorem C4_unique_candidate_witness :
    (SetIcon (fun s => s == "/opt/app/bin/resources/icon.png") "/opt/app/bin/myprog").2.logs
      = [(LogLevel.info, infoMsg "/opt/app/bin/resources/icon.png")] ∧
    (SetIcon (fun s => s == "/opt/app/bin/resources/icon.png") "/opt/app/bin/myprog").2.iconCalls
      = ["/opt/app/bin/resources/icon.png"] :=
  C4_unique_candidate _ _ _ (by decide) (by decide) (by decide)

/-- Claim C5: if neither `parentDir/icon.png` nor
`parentDir/resources/icon.png` exists but `"resources/icon.png"`
(relative to the working directory) does, `SetIcon` invokes the
collaborator with `"resources/icon.png"`. -/
theorem C5_cwd_resources (fs : String → Bool) (a : String)
    (h1 : fs (pathAppend (parentPath a) "icon.png") = false)
    (h2 : fs (pathAppend (pathAppend (parentPath a) "resources") "icon.png") = false)
    (h3 : fs "resources/icon.png" = true) :
    (SetIcon fs a).2.iconCalls = ["resources/icon.png"] := by
  have hloop : (probeLoop fs (possible_paths a)).1 = "resources/icon.png" := by
    simp [possible_paths, probeLoop, h1, h2, h3]
  unfold SetIcon
  rw [hloop, if_neg (by decide : ¬("resources/icon.png" : String) = "")]

theorem C5_cwd_resources_witness :
    (SetIcon (fun s => s == "resources/icon.png") "/opt/app/bin/myprog").2.iconCalls
      = ["resources/icon.png"] :=
  C5_cwd_resources _ _ (by decide) (by decide) (by decide)

/-- Claim C6: `SetIcon` is deterministic/idempotent — a second call with
the same hint on the filesystem state left by the first produces the
identical observable effects. -/
theorem C6_idempotent (fs : String → Bool) (a : String) :
    (SetIcon (SetIcon fs a).1 a).2 = (SetIcon fs a).2 := by
  rw [SetIcon_fst]

/-- Claim C7: `SetIcon` leaves the filesystem unchanged and its only
filesystem interactions are existence queries, each on one of the four
candidate paths, so at most four queries. -/
theorem C7_frame (fs : String → Bool) (a : String) :
    (SetIcon fs a).1 = fs ∧
    ((SetIcon fs a).2.queries.all fun q => (possible_paths a).contains q) = true ∧
    (SetIcon fs a).2.queries.length ≤ 4 := by
  refine ⟨SetIcon_fst fs a, ?_, ?_⟩
  · rw [SetIcon_queries, List.all_eq_true]
    intro q hq
    have hmem := probeLoop_queries_sub fs (possible_paths a) q hq
    simpa [List.contains] using hmem
  · rw [SetIcon_queries]
    exact probeLoop_queries_len fs (possible_paths a)

/-- Claim C8: the spec's two concrete examples hold: with
`/opt/app/bin/icon.png` existing, hint `/opt/app/bin/myprog` leads to a
collaborator call with `/opt/app/bin/icon.png`; with only `icon.png`
existing in the working directory, hint `myprog` leads to a call with
`icon.png`. -/
theorem C8_examples :
    (SetIcon (fun s => s == "/opt/app/bin/icon.png") "/opt/app/bin/myprog").2.iconCalls
      = ["/opt/app/bin/icon.png"] ∧
    (SetIcon (fun s => s == "icon.png") "myprog").2.iconCalls = ["icon.png"] := by
  decide

/-- Claim C9: for a hint with no directory component the candidate list
collapses to `["icon.png", "resources/icon.png", "resources/icon.png",
"icon.png"]`, so the working-directory `icon.png` is probed before
`resources/icon.png`, reversing the relative order the two
working-directory fallbacks have in the documented list. -/
theorem C9_empty_parent (a : String) (h : parentPath a = "") :
    possible_paths a =
      ["icon.png", "resources/icon.png", "resources/icon.png", "icon.png"] := by
  have e1 : pathAppend "" "icon.png" = "icon.png" := by decide
  have e2 : pathAppend (pathAppend "" "resources") "icon.png" =
      "resources/icon.png" := by decide
  simp only [possible_paths, h, e1, e2]

theorem C9_empty_parent_witness :
    possible_paths "myprog" =
      ["icon.png", "resources/icon.png", "resources/icon.png", "icon.png"] :=
  C9_empty_parent "myprog" (by decide)

/-- Claim C10: the empty-string sentinel is sound — the probe loop's
result is empty iff no candidate exists (every candidate string is
non-empty), and the collaborator is only ever invoked with a non-empty
string that is one of the four candidates and existed at probe time. -/
theorem C10_sentinel (fs : String → Bool) (a : String) :
    ((probeLoop fs (possible_paths a)).1 = "" ↔ ∀ p ∈ possible_paths a, fs p = false) ∧
    (∀ p ∈ (SetIcon fs a).2.iconCalls,
      p ≠ "" ∧ p ∈ possible_paths a ∧ fs p = true) := by
  constructor
  · exact probeLoop_empty_iff fs _ (mem_possible_paths_ne_empty a)
  · intro p hp
    by_cases hch : (probeLoop fs (possible_paths a)).1 = ""
    · unfold SetIcon at hp
      rw [if_pos hch] at hp
      cases hp
    · unfold SetIcon at hp
      rw [if_neg hch] at hp
      simp only [List.mem_singleton] at hp
      subst hp
      obtain ⟨hmem, hfs⟩ := probeLoop_found fs _ hch
      exact ⟨hch, hmem, hfs⟩

theorem C10_sentinel_witness :
    ("icon.png" : String) ≠ "" ∧ "icon.png" ∈ possible_paths "myprog" ∧
      (fun s => s == "icon.png") "icon.png" = true :=
  (C10_sentinel (fun s => s == "icon.png") "myprog").2 "icon.png" (by decide)

end IconCmake
